import Mathlib

/-!
Verification of the filter aggregation and application subsystem of
insights-core, as described by the repository specification and the
Filters Tutorial notebook (docs/notebooks).  The implementation module
insights.core.filters (add_filter, get_filters, apply) is not part of the
repository snapshot, so every operation below is modelled from the spec.
-/

/-- Modelled from the spec: a pattern value handed to `contribute`
(insights.core.filters.add_filter is missing from the snapshot).  The spec
says patterns may be "empty or not text"; we model a candidate value as
either a text value or a non-text value. -/
inductive RawPattern where
  | text (s : String)
  | nonText
deriving DecidableEq

/-- The text carried by a pattern candidate, if any. -/
def patText : RawPattern → Option String
  | .text s => some s
  | .nonText => none

/-- Modelled from the spec: a valid FilterPattern is a non-empty text value. -/
def validPattern : RawPattern → Bool
  | .text s => decide (s ≠ "")
  | .nonText => false

/-- Modelled from the spec: the error taxonomy of the contribution API
(InvalidPatternError, FrozenRegistryError). -/
inductive FilterError where
  | invalidPattern
  | frozenRegistry
deriving DecidableEq

/-- Modelled from the spec: the FilterRegistry, a mapping from
DatasourceIdentity (an opaque key, modelled as String) to its FilterSet
(a set of patterns, no duplicates, insertion order irrelevant), together
with the declare-phase/run-phase flag set by freeze. -/
structure FilterRegistry where
  filters : String → Finset String
  frozen : Bool

/-- Modelled from the spec: the registry as instantiated at process
startup: every FilterSet empty, declare phase. -/
def initialRegistry : FilterRegistry := ⟨fun _ => ∅, false⟩

/-- Modelled from the spec: contribute(datasource, patterns).  Fails with
FrozenRegistryError after freeze, fails with InvalidPatternError if any
pattern is empty or not text, otherwise unions the patterns into the
datasource's FilterSet. -/
def contribute (reg : FilterRegistry) (ds : String) (pats : List RawPattern) :
    Except FilterError FilterRegistry :=
  if reg.frozen then .error .frozenRegistry
  else if pats.all validPattern then
    .ok ⟨fun d => if d = ds then reg.filters d ∪ (pats.filterMap patText).toFinset
                  else reg.filters d,
         reg.frozen⟩
  else .error .invalidPattern

/-- Modelled from the spec: freeze() transitions the registry to the run
phase. -/
def freeze (reg : FilterRegistry) : FilterRegistry := ⟨reg.filters, true⟩

/-- Modelled from the spec: get(datasource) / filtersFor(datasource), the
read-only inspection accessor returning the datasource's FilterSet. -/
def filtersFor (reg : FilterRegistry) (ds : String) : Finset String :=
  reg.filters ds

/-- Modelled from the spec: the process-level state: the registry together
with the GlobalFilterToggle resolved once at startup. -/
structure ProcessState where
  registry : FilterRegistry
  toggleEnabled : Bool

/-- Modelled from the spec: the inspection entry point on the process
state; it reads only the registry, never the toggle. -/
def stateFiltersFor (st : ProcessState) (ds : String) : Finset String :=
  filtersFor st.registry ds

/-- A pattern occurs in a line as a contiguous substring, compared
character-exact. -/
def containsSubstr (line pat : String) : Prop := pat.data <:+: line.data

instance (line pat : String) : Decidable (containsSubstr line pat) :=
  List.decidableInfix pat.data line.data

/-- A line matches a FilterSet when it contains at least one of its
patterns as a substring (logical OR across patterns). -/
def lineMatches (fs : Finset String) (line : String) : Bool :=
  decide (∃ p ∈ fs, containsSubstr line p)

namespace FilterApplier

/-- Modelled from the spec: FilterApplier.apply(rawLines, filterSet,
toggleEnabled).  Passthrough when the toggle is disabled or the FilterSet
is empty; otherwise keeps exactly the lines matching the FilterSet, in
order. -/
def apply (rawLines : List String) (filterSet : Finset String)
    (toggleEnabled : Bool) : List String :=
  if toggleEnabled = false then rawLines
  else if filterSet = ∅ then rawLines
  else rawLines.filter (lineMatches filterSet)

end FilterApplier

/-- Modelled from the spec: a declare-phase sequence of contribute calls,
each a datasource paired with its pattern list, run left to right. -/
def runCalls : FilterRegistry → List (String × List RawPattern) →
    Except FilterError FilterRegistry
  | reg, [] => .ok reg
  | reg, c :: rest =>
    match contribute reg c.1 c.2 with
    | .error e => .error e
    | .ok reg' => runCalls reg' rest

/-- All patterns of all calls in a declare-phase sequence are valid. -/
def validCalls (calls : List (String × List RawPattern)) : Bool :=
  calls.all fun c => c.2.all validPattern

/-- The merged set of patterns a sequence of calls contributes to one
datasource. -/
def contributedFor (ds : String) : List (String × List RawPattern) → Finset String
  | [] => ∅
  | c :: rest =>
    (if c.1 = ds then (c.2.filterMap patText).toFinset else ∅) ∪
      contributedFor ds rest

/-- The FilterSet visible through inspection for a datasource after running
a declare-phase sequence from process startup; none if the sequence failed. -/
def filtersAfter (calls : List (String × List RawPattern)) (ds : String) :
    Option (Finset String) :=
  match runCalls initialRegistry calls with
  | .ok reg => some (filtersFor reg ds)
  | .error _ => none

/-- The 12 raw lines of death_star.ini as shown in the tutorial notebook
(blank lines excluded, matching the spec's 12-line scenario content). -/
def deathStarLines : List String :=
  ["[global]",
   "logging=debug",
   "log=/var/logs/sample.log",
   "# Keep this info secret",
   "[secret_stuff]",
   "username=dvader",
   "password=luke_is_my_son",
   "[facts]",
   "major_vulnerability=ray-shielded particle exhaust vent",
   "[settings]",
   "music=The Imperial March",
   "color=black"]

/-- Scenario A, first registration order: component R1 contributes
fail_start, then component R2 contributes locked and exceeded. -/
def scenarioOrder1 : List (String × List RawPattern) :=
  [("messages", [RawPattern.text "fail_start"]),
   ("messages", [RawPattern.text "locked", RawPattern.text "exceeded"])]

/-- Scenario A, opposite registration order. -/
def scenarioOrder2 : List (String × List RawPattern) :=
  [("messages", [RawPattern.text "locked", RawPattern.text "exceeded"]),
   ("messages", [RawPattern.text "fail_start"])]

lemma validPattern_iff (p : RawPattern) :
    validPattern p = true ↔ ¬(p = RawPattern.text "" ∨ p = RawPattern.nonText) := by
  cases p <;> simp [validPattern]

lemma all_valid_iff (pats : List RawPattern) :
    pats.all validPattern = true ↔
      ∀ p ∈ pats, ¬(p = RawPattern.text "" ∨ p = RawPattern.nonText) := by
  rw [List.all_eq_true]
  exact forall_congr' fun p => imp_congr_right fun _ => validPattern_iff p

lemma exists_invalid_iff (pats : List RawPattern) :
    (∃ p ∈ pats, p = RawPattern.text "" ∨ p = RawPattern.nonText) ↔
      pats.all validPattern = false := by
  constructor
  · rintro ⟨p, hp, hq⟩
    rw [Bool.eq_false_iff]
    intro hall
    exact (all_valid_iff pats).mp hall p hp hq
  · intro h
    rw [Bool.eq_false_iff] at h
    by_contra hne
    refine h ((all_valid_iff pats).mpr ?_)
    intro p hp hq
    exact hne ⟨p, hp, hq⟩

lemma contribute_ok_char (reg : FilterRegistry) (ds : String)
    (pats : List RawPattern) (hf : reg.frozen = false)
    (hv : pats.all validPattern = true) :
    contribute reg ds pats =
      .ok ⟨fun d => if d = ds then reg.filters d ∪ (pats.filterMap patText).toFinset
                    else reg.filters d, false⟩ := by
  simp [contribute, hf, hv]

lemma contribute_filters_subset {reg reg' : FilterRegistry} {ds : String}
    {pats : List RawPattern} (h : contribute reg ds pats = .ok reg')
    (d : String) : reg.filters d ⊆ reg'.filters d := by
  unfold contribute at h
  split at h
  · exact absurd h (by simp)
  · split at h
    · injection h with h'
      subst h'
      by_cases hd : d = ds <;> simp [hd]
    · exact absurd h (by simp)

lemma lineMatches_iff (fs : Finset String) (line : String) :
    lineMatches fs line = true ↔ ∃ p ∈ fs, p.data <:+: line.data := by
  simp [lineMatches, containsSubstr]

/-- Claim C1: with a non-empty FilterSet and the toggle enabled, apply
returns the ordered subsequence of the input in which a line occurs (with
its original multiplicity) exactly when it contains at least one pattern
of the FilterSet as a substring; being a sublist, the output neither
duplicates nor reorders lines. -/
theorem apply_retention (lines : List String) (fs : Finset String)
    (l : String) (h : fs ≠ ∅) :
    List.Sublist (FilterApplier.apply lines fs true) lines ∧
    (FilterApplier.apply lines fs true).count l =
      (if ∃ p ∈ fs, p.data <:+: l.data then lines.count l else 0) := by
  have happ : FilterApplier.apply lines fs true = lines.filter (lineMatches fs) := by
    simp [FilterApplier.apply, h]
  refine ⟨happ ▸ List.filter_sublist lines, ?_⟩
  rw [happ]
  by_cases hm : lineMatches fs l
  · rw [List.count_filter hm, if_pos ((lineMatches_iff fs l).mp hm)]
  · rw [if_neg fun hex => hm ((lineMatches_iff fs l).mpr hex)]
    refine List.count_eq_zero.mpr fun hmem => ?_
    exact hm (List.mem_filter.mp hmem).2

theorem apply_retention_witness :
    ({"["} : Finset String) ≠ ∅ ∧
    (List.Sublist (FilterApplier.apply ["a[b", "cd"] {"["} true) ["a[b", "cd"] ∧
     (FilterApplier.apply ["a[b", "cd"] {"["} true).count "a[b" =
       (if ∃ p ∈ ({"["} : Finset String), p.data <:+: "a[b".data
        then (["a[b", "cd"] : List String).count "a[b" else 0)) :=
  ⟨by decide, apply_retention ["a[b", "cd"] {"["} "a[b" (by decide)⟩

/-- Claim C3: with the toggle disabled, apply returns the raw lines
unchanged for every FilterSet; in particular on the 12-line tutorial
content with FilterSet containing the bracket pattern. -/
theorem apply_toggle_disabled_passthrough :
    (∀ (lines : List String) (fs : Finset String),
        FilterApplier.apply lines fs false = lines) ∧
    FilterApplier.apply deathStarLines {"["} false = deathStarLines := by
  refine ⟨fun lines fs => ?_, ?_⟩ <;> simp [FilterApplier.apply]

/-- Claim C4: on the 12-line tutorial content, the bracket FilterSet
retains exactly the 4 section-header lines, and adding the vulnerability
pattern retains those plus the vulnerability line, 5 lines in original
order. -/
theorem apply_death_star_scenarios :
    FilterApplier.apply deathStarLines {"["} true =
      ["[global]", "[secret_stuff]", "[facts]", "[settings]"] ∧
    FilterApplier.apply deathStarLines {"[", "vulnerability"} true =
      ["[global]", "[secret_stuff]", "[facts]",
       "major_vulnerability=ray-shielded particle exhaust vent", "[settings]"] :=
  ⟨by decide, by decide⟩

/-- Claim C5: with an empty FilterSet and the toggle enabled, apply
returns the raw lines unchanged. -/
theorem apply_empty_filterset_passthrough (lines : List String) :
    FilterApplier.apply lines ∅ true = lines := by
  simp [FilterApplier.apply]

/-- Claim C10: retention is whole-line granular: every line apply retains
is an element of the input, delivered verbatim; in particular the full
vulnerability line, value included, appears in the filtered tutorial
output. -/
theorem apply_lines_verbatim (lines : List String) (fs : Finset String)
    (t : Bool) (l : String) (h : l ∈ FilterApplier.apply lines fs t) :
    l ∈ lines ∧
    "major_vulnerability=ray-shielded particle exhaust vent" ∈
      FilterApplier.apply deathStarLines {"[", "vulnerability"} true := by
  refine ⟨?_, by decide⟩
  unfold FilterApplier.apply at h
  split at h
  · exact h
  · split at h
    · exact h
    · exact List.mem_of_mem_filter h

theorem apply_lines_verbatim_witness :
    "[global]" ∈ FilterApplier.apply deathStarLines {"[", "vulnerability"} true ∧
    ("[global]" ∈ deathStarLines ∧
     "major_vulnerability=ray-shielded particle exhaust vent" ∈
       FilterApplier.apply deathStarLines {"[", "vulnerability"} true) :=
  ⟨by decide,
   apply_lines_verbatim deathStarLines {"[", "vulnerability"} true "[global]" (by decide)⟩

lemma runCalls_ok_char (calls : List (String × List RawPattern)) :
    ∀ reg : FilterRegistry, reg.frozen = false → validCalls calls = true →
      ∃ reg', runCalls reg calls = .ok reg' ∧ reg'.frozen = false ∧
        ∀ d, reg'.filters d = reg.filters d ∪ contributedFor d calls := by
  induction calls with
  | nil =>
    intro reg hf _
    exact ⟨reg, rfl, hf, fun d => by simp [contributedFor]⟩
  | cons c rest ih =>
    intro reg hf hv
    rw [validCalls, List.all_cons, Bool.and_eq_true] at hv
    obtain ⟨hv1, hv2⟩ := hv
    obtain ⟨reg', hrun, hfr, hchar⟩ :=
      ih ⟨fun d => if d = c.1 then reg.filters d ∪ (c.2.filterMap patText).toFinset
                   else reg.filters d, false⟩ rfl hv2
    refine ⟨reg', ?_, hfr, fun d => ?_⟩
    · simp only [runCalls, contribute_ok_char reg c.1 c.2 hf hv1]
      exact hrun
    · rw [hchar d]
      by_cases hd : d = c.1
      · simp [contributedFor, hd, Finset.union_assoc]
      · simp [contributedFor, hd, Ne.symm hd]

lemma contributedFor_perm (ds : String)
    {c1 c2 : List (String × List RawPattern)} (h : List.Perm c1 c2) :
    contributedFor ds c1 = contributedFor ds c2 := by
  induction h with
  | nil => rfl
  | cons x _ ih => simp only [contributedFor, ih]
  | swap x y l =>
    simp only [contributedFor]
    rw [Finset.union_left_comm]
  | trans _ _ ih1 ih2 => exact ih1.trans ih2

lemma contributedFor_append (ds : String)
    (l1 l2 : List (String × List RawPattern)) :
    contributedFor ds (l1 ++ l2) = contributedFor ds l1 ∪ contributedFor ds l2 := by
  induction l1 with
  | nil => simp [contributedFor]
  | cons c rest ih => simp [contributedFor, ih, Finset.union_assoc]

lemma contributedFor_empty_of_not_target (ds : String)
    (calls : List (String × List RawPattern)) (h : ∀ c ∈ calls, c.1 ≠ ds) :
    contributedFor ds calls = ∅ := by
  induction calls with
  | nil => rfl
  | cons c rest ih =>
    have h1 : c.1 ≠ ds := h c (List.mem_cons_self c rest)
    have h2 := ih fun x hx => h x (List.mem_cons_of_mem c hx)
    simp [contributedFor, h1, h2]

lemma runCalls_eq_of_same_contrib (reg : FilterRegistry)
    (c1 c2 : List (String × List RawPattern)) (hf : reg.frozen = false)
    (hv1 : validCalls c1 = true) (hv2 : validCalls c2 = true)
    (hsame : ∀ d, contributedFor d c1 = contributedFor d c2) :
    runCalls reg c1 = runCalls reg c2 := by
  obtain ⟨r1, h1, hfr1, hc1⟩ := runCalls_ok_char c1 reg hf hv1
  obtain ⟨r2, h2, hfr2, hc2⟩ := runCalls_ok_char c2 reg hf hv2
  rw [h1, h2]
  congr 1
  cases r1 with
  | mk f1 b1 =>
    cases r2 with
    | mk f2 b2 =>
      congr 1
      · funext d
        exact (hc1 d).trans ((hsame d) ▸ (hc2 d).symm)
      · rw [show b1 = false from hfr1, show b2 = false from hfr2]

/-- Claim C6: contribute fails with FrozenRegistryError exactly when the
registry is in the run phase (in particular always after freeze), fails
with InvalidPatternError exactly when it is in the declare phase and some
supplied pattern is empty or not text, and succeeds exactly when it is in
the declare phase and every pattern is valid.  The applier itself is a
total function and raises nothing. -/
theorem contribute_error_behavior (reg : FilterRegistry) (ds : String)
    (pats : List RawPattern) :
    contribute (freeze reg) ds pats = .error .frozenRegistry ∧
    (contribute reg ds pats = .error .frozenRegistry ↔ reg.frozen = true) ∧
    (contribute reg ds pats = .error .invalidPattern ↔
      reg.frozen = false ∧
        ∃ p ∈ pats, p = RawPattern.text "" ∨ p = RawPattern.nonText) ∧
    ((∃ reg', contribute reg ds pats = .ok reg') ↔
      reg.frozen = false ∧
        ∀ p ∈ pats, ¬(p = RawPattern.text "" ∨ p = RawPattern.nonText)) := by
  refine ⟨by simp [contribute, freeze], ?_, ?_, ?_⟩
  · cases hb : reg.frozen with
    | true => simp [contribute, hb]
    | false =>
      cases hall : pats.all validPattern with
      | true => simp [contribute, hb, hall]
      | false => simp [contribute, hb, hall]
  · rw [exists_invalid_iff]
    cases hb : reg.frozen with
    | true => simp [contribute, hb]
    | false =>
      cases hall : pats.all validPattern with
      | true => simp [contribute, hb, hall]
      | false => simp [contribute, hb, hall]
  · rw [← all_valid_iff]
    cases hb : reg.frozen with
    | true => simp [contribute, hb]
    | false =>
      cases hall : pats.all validPattern with
      | true => simp [contribute, hb, hall]
      | false => simp [contribute, hb, hall]

theorem contribute_error_behavior_witness :
    contribute (freeze initialRegistry) "messages" [RawPattern.text "x"] =
      .error .frozenRegistry ∧
    (contribute initialRegistry "messages" [RawPattern.text "x"] =
        .error .frozenRegistry ↔ initialRegistry.frozen = true) ∧
    (contribute initialRegistry "messages" [RawPattern.text "x"] =
        .error .invalidPattern ↔
      initialRegistry.frozen = false ∧
        ∃ p ∈ [RawPattern.text "x"],
          p = RawPattern.text "" ∨ p = RawPattern.nonText) ∧
    ((∃ reg', contribute initialRegistry "messages" [RawPattern.text "x"] =
        .ok reg') ↔
      initialRegistry.frozen = false ∧
        ∀ p ∈ [RawPattern.text "x"],
          ¬(p = RawPattern.text "" ∨ p = RawPattern.nonText)) :=
  contribute_error_behavior initialRegistry "messages" [RawPattern.text "x"]

/-- Claim C2: contribute is idempotent and commutative: a declare-phase
sequence of valid calls always succeeds and yields, per datasource, the
merged deduplicated union of everything contributed; two sequences with
the same per-datasource contributions, in particular permutations or a
duplicated sequence, produce the same registry; and scenario A gives the
set containing fail_start, locked and exceeded in either registration
order. -/
theorem contribute_commutative_idempotent (reg : FilterRegistry)
    (calls1 calls2 : List (String × List RawPattern)) (ds : String)
    (hf : reg.frozen = false)
    (hv1 : validCalls calls1 = true) (hv2 : validCalls calls2 = true) :
    (∀ reg1, runCalls reg calls1 = .ok reg1 →
        filtersFor reg1 ds = filtersFor reg ds ∪ contributedFor ds calls1) ∧
    ((∀ d, contributedFor d calls1 = contributedFor d calls2) →
        runCalls reg calls1 = runCalls reg calls2) ∧
    (List.Perm calls1 calls2 → runCalls reg calls1 = runCalls reg calls2) ∧
    runCalls reg (calls1 ++ calls1) = runCalls reg calls1 ∧
    (filtersAfter scenarioOrder1 "messages" =
        some {"fail_start", "locked", "exceeded"} ∧
     filtersAfter scenarioOrder2 "messages" =
        some {"fail_start", "locked", "exceeded"}) := by
  refine ⟨?_, ?_, ?_, ?_, by decide, ?_⟩
  · intro reg1 h1
    obtain ⟨reg', hrun, _, hchar⟩ := runCalls_ok_char calls1 reg hf hv1
    rw [h1] at hrun
    injection hrun with hrun
    rw [hrun]
    exact hchar ds
  · exact runCalls_eq_of_same_contrib reg calls1 calls2 hf hv1 hv2
  · intro hperm
    exact runCalls_eq_of_same_contrib reg calls1 calls2 hf hv1 hv2
      fun d => contributedFor_perm d hperm
  · have hvapp : validCalls (calls1 ++ calls1) = true := by
      rw [validCalls, List.all_append]
      rw [validCalls] at hv1
      simp [hv1]
    refine runCalls_eq_of_same_contrib reg (calls1 ++ calls1) calls1 hf hvapp hv1
      fun d => ?_
    rw [contributedFor_append, Finset.union_self]
  · have h : filtersAfter scenarioOrder2 "messages" =
        some (((∅ : Finset String) ∪
            (["locked", "exceeded"] : List String).toFinset) ∪
          (["fail_start"] : List String).toFinset) := rfl
    rw [h]
    congr 1
    ext x
    simp
    tauto

theorem contribute_commutative_idempotent_witness :
    initialRegistry.frozen = false ∧
    validCalls scenarioOrder1 = true ∧
    validCalls scenarioOrder2 = true ∧
    ((∀ reg1, runCalls initialRegistry scenarioOrder1 = .ok reg1 →
        filtersFor reg1 "messages" =
          filtersFor initialRegistry "messages" ∪
            contributedFor "messages" scenarioOrder1) ∧
     ((∀ d, contributedFor d scenarioOrder1 = contributedFor d scenarioOrder2) →
        runCalls initialRegistry scenarioOrder1 =
          runCalls initialRegistry scenarioOrder2) ∧
     (List.Perm scenarioOrder1 scenarioOrder2 →
        runCalls initialRegistry scenarioOrder1 =
          runCalls initialRegistry scenarioOrder2) ∧
     runCalls initialRegistry (scenarioOrder1 ++ scenarioOrder1) =
        runCalls initialRegistry scenarioOrder1 ∧
     (filtersAfter scenarioOrder1 "messages" =
        some {"fail_start", "locked", "exceeded"} ∧
      filtersAfter scenarioOrder2 "messages" =
        some {"fail_start", "locked", "exceeded"})) :=
  ⟨rfl, by decide, by decide,
   contribute_commutative_idempotent initialRegistry scenarioOrder1
     scenarioOrder2 "messages" rfl (by decide) (by decide)⟩

/-- Claim C7: after any successful declare-phase sequence from process
startup, the inspection accessor reports exactly the patterns contributed
for the queried datasource, its result does not depend on the toggle
state, and it is the empty set for a datasource no call ever targeted. -/
theorem filtersFor_reports_contributions
    (calls : List (String × List RawPattern)) (reg' : FilterRegistry)
    (ds : String) (t1 t2 : Bool) (hv : validCalls calls = true)
    (hrun : runCalls initialRegistry calls = .ok reg') :
    stateFiltersFor ⟨reg', t1⟩ ds = stateFiltersFor ⟨reg', t2⟩ ds ∧
    stateFiltersFor ⟨reg', t1⟩ ds = contributedFor ds calls ∧
    ((∀ c ∈ calls, c.1 ≠ ds) → stateFiltersFor ⟨reg', t1⟩ ds = ∅) := by
  obtain ⟨reg2, h2, _, hchar⟩ := runCalls_ok_char calls initialRegistry rfl hv
  rw [hrun] at h2
  injection h2 with h2
  have hds : stateFiltersFor ⟨reg', t1⟩ ds = contributedFor ds calls := by
    have := hchar ds
    rw [← h2] at this
    simpa [stateFiltersFor, filtersFor, initialRegistry] using this
  refine ⟨rfl, hds, fun hno => ?_⟩
  rw [hds, contributedFor_empty_of_not_target ds calls hno]

theorem filtersFor_reports_contributions_witness :
    validCalls [] = true ∧
    runCalls initialRegistry [] = .ok initialRegistry ∧
    (stateFiltersFor ⟨initialRegistry, true⟩ "messages" =
        stateFiltersFor ⟨initialRegistry, false⟩ "messages" ∧
     stateFiltersFor ⟨initialRegistry, true⟩ "messages" =
        contributedFor "messages" [] ∧
     ((∀ c ∈ ([] : List (String × List RawPattern)), c.1 ≠ "messages") →
        stateFiltersFor ⟨initialRegistry, true⟩ "messages" = ∅)) :=
  ⟨rfl, rfl,
   filtersFor_reports_contributions [] initialRegistry "messages" true false
     rfl rfl⟩

/-- Claim C8: registry operations preserve the FilterSet invariant: after
any successful sequence of contribute calls, every datasource's FilterSet
contains no duplicate patterns and includes everything it contained
before the sequence ran, so FilterSets only grow by union and never lose
a contributed pattern. -/
theorem registry_invariant (reg : FilterRegistry)
    (calls : List (String × List RawPattern)) (reg' : FilterRegistry)
    (d : String) (hrun : runCalls reg calls = .ok reg') :
    filtersFor reg d ⊆ filtersFor reg' d ∧
    (filtersFor reg' d).val.Nodup := by
  refine ⟨?_, (reg'.filters d).nodup⟩
  induction calls generalizing reg with
  | nil =>
    injection hrun with hrun
    rw [hrun]
  | cons c rest ih =>
    cases hc : contribute reg c.1 c.2 with
    | error e => simp [runCalls, hc] at hrun
    | ok reg1 =>
      simp only [runCalls, hc] at hrun
      exact fun x hx => ih reg1 hrun (contribute_filters_subset hc d hx)

theorem registry_invariant_witness :
    runCalls initialRegistry [] = .ok initialRegistry ∧
    (filtersFor initialRegistry "messages" ⊆
        filtersFor initialRegistry "messages" ∧
     (filtersFor initialRegistry "messages").val.Nodup) :=
  ⟨rfl, registry_invariant initialRegistry [] initialRegistry "messages" rfl⟩

/-- Claim C9: during the declare phase, contributing a list of patterns in
one contribute call produces exactly the same outcome as contributing each
pattern individually in separate calls, in the same order. -/
theorem contribute_batch_eq_singles (reg : FilterRegistry) (ds : String)
    (pats : List RawPattern) (hf : reg.frozen = false) :
    runCalls reg (pats.map fun p => (ds, [p])) = contribute reg ds pats := by
  induction pats generalizing reg with
  | nil =>
    simp only [List.map_nil, runCalls]
    rw [contribute_ok_char reg ds [] hf rfl]
    congr 1
    cases reg with
    | mk f b =>
      congr 1
      · funext d
        by_cases hd : d = ds <;> simp [hd]
  | cons p ps ih =>
    cases hvp : validPattern p with
    | false =>
      have hall2 : (p :: ps).all validPattern = false := by
        simp [List.all_cons, hvp]
      have h1 : [p].all validPattern = false := by
        simp [List.all_cons, hvp]
      simp [runCalls, contribute, hf, h1, hall2]
    | true =>
      have h1 : [p].all validPattern = true := by
        simp [List.all_cons, hvp]
      simp only [List.map_cons, runCalls,
        contribute_ok_char reg ds [p] hf h1]
      rw [ih _ rfl]
      cases hall : ps.all validPattern with
      | false =>
        have hall2 : (p :: ps).all validPattern = false := by
          simp [List.all_cons, hall]
        simp [contribute, hf, hall, hall2]
      | true =>
        have hall2 : (p :: ps).all validPattern = true := by
          simp [List.all_cons, hvp, hall]
        rw [contribute_ok_char _ ds ps rfl hall,
          contribute_ok_char reg ds (p :: ps) hf hall2]
        cases p with
        | nonText => simp [validPattern] at hvp
        | text s =>
          congr 1
          congr 1
          funext d
          by_cases hd : d = ds
          · simp [hd, patText, List.filterMap_cons, Finset.union_assoc]
            ext x
            simp
            tauto
          · simp [hd]

theorem contribute_batch_eq_singles_witness :
    initialRegistry.frozen = false ∧
    runCalls initialRegistry
        ([RawPattern.text "locked", RawPattern.text "exceeded"].map
          fun p => ("messages", [p])) =
      contribute initialRegistry "messages"
        [RawPattern.text "locked", RawPattern.text "exceeded"] :=
  ⟨rfl, contribute_batch_eq_singles initialRegistry "messages"
    [RawPattern.text "locked", RawPattern.text "exceeded"] rfl⟩
